import Mathlib

/-!
Shallow embedding of the gophkeeper vault-cryptography and
session-authentication core, translated from the Go sources in
`internal/crypto/crypto.go`, `internal/auth/middleware.go`,
`internal/client/session.go`, `internal/server/handlers.go` and the
client transport code, together with theorems settling the frozen
claims about that code.

Modelling conventions:
* Byte slices (`[]byte`) are `List Nat`; machine bytes never overflow in
  the modelled code paths, so no modular reduction is needed.
* Library primitives that are outside the repository (PBKDF2, AES-GCM,
  JSON marshalling) are modelled as deterministic executable functions
  that keep the interface contract the Go code relies on: PBKDF2 is a
  pure function of (password, salt) with a 32-byte result; AES-GCM seal
  is an injective deterministic encoding of (key, nonce, plaintext)
  whose open operation succeeds exactly on untampered seals under the
  same key and nonce; JSON marshalling of the envelope struct is an
  injective byte encoding with a total parser.
* Randomness (`rand.Read` for salts and nonces) is passed in as an
  explicit argument of the operation that draws it.
-/

namespace Gophkeeper

/-- Byte strings: Go `[]byte` modelled as lists of byte values. -/
abbrev Bytes := List Nat

/-- Models the Go conversion `[]byte(s)` of a string to its bytes. -/
def strBytes (s : String) : Bytes := s.data.map Char.toNat

/-- Models `crypto.EncryptedData`: the envelope struct with `nonce`,
`salt` and `data` fields (crypto.go). -/
structure EncryptedData where
  nonce : Bytes
  salt : Bytes
  data : Bytes
deriving DecidableEq, Repr

/-- Error taxonomy of the crypto package, classifying the `fmt.Errorf`
values returned by crypto.go according to the kind of failure:
validation errors (bad lengths, empty payloads, malformed envelope),
crypto errors (AEAD authentication failure) and internal errors
(cipher-construction failures that cannot occur for derived keys). -/
inductive CryptoErr where
  | validationError (msg : String)
  | cryptoError (msg : String)
  | internalError (msg : String)
deriving DecidableEq, Repr

/-- Models `pbkdf2.Key(password, salt, 100000, 32, sha256.New)`: the
library key-derivation function, modelled as a deterministic pure
function of (password, salt) producing exactly 32 bytes, which is the
contract crypto.go relies on. -/
def pbkdf2Key (password salt : Bytes) : Bytes :=
  (password ++ salt ++ List.replicate 32 0).take 32

/-- Models the key-size check of `aes.NewCipher`: it succeeds exactly
for 16, 24 or 32 byte keys. -/
def aesKeyOk (key : Bytes) : Bool :=
  key.length == 16 || key.length == 24 || key.length == 32

/-- Models `gcm.NonceSize()` for the standard GCM construction. -/
def gcmNonceSize : Nat := 12

/-- Body of the idealized AES-256-GCM seal: ciphertext together with the
authentication tag, modelled as a deterministic encoding that binds the
plaintext to the key and the nonce twice, so that it can be reopened
only with the same key and nonce and so that changing any single
position of the body, the nonce or the key is detected. -/
def gcmSealBody (key nonce pt : Bytes) : Bytes :=
  pt ++ key ++ nonce ++ pt

/-- Models `gcm.Seal(dst, nonce, pt, nil)`: appends the sealed body to
`dst` (crypto.go passes the nonce itself as `dst`). -/
def gcmSeal (dst key nonce pt : Bytes) : Bytes :=
  dst ++ gcmSealBody key nonce pt

/-- Models `gcm.Open(nil, nonce, c, nil)` for the idealized seal: it
recovers the plaintext exactly when `c` is a well-formed seal under the
given key and nonce, and fails (authentication failure) otherwise. -/
def gcmOpen (key nonce c : Bytes) : Option Bytes :=
  if 44 ≤ c.length ∧ (c.length - 44) % 2 = 0 then
    if c = c.take ((c.length - 44) / 2) ++ key ++ nonce ++ c.take ((c.length - 44) / 2)
    then some (c.take ((c.length - 44) / 2)) else none
  else none

/-- Models `crypto.CryptoManager`: master password, derived key and
salt (crypto.go). -/
structure CryptoManager where
  masterPassword : String
  key : Bytes
  salt : Bytes
deriving DecidableEq, Repr

/-- Models `crypto.NewCryptoManagerWithSalt`: rejects an empty master
password and a salt whose length is not 32, otherwise derives the key
with PBKDF2 and packages the manager. -/
def NewCryptoManagerWithSalt (masterPassword : String) (salt : Bytes) :
    Except CryptoErr CryptoManager :=
  if masterPassword = "" then
    .error (.validationError "master password cannot be empty")
  else if salt.length ≠ 32 then
    .error (.validationError "invalid salt length: expected 32 bytes")
  else
    .ok ⟨masterPassword, pbkdf2Key (strBytes masterPassword) salt, salt⟩

/-- Models `crypto.NewCryptoManager`: rejects an empty master password,
then derives the key from a freshly generated 32-byte random salt.  The
random salt drawn by `rand.Read` is passed in as the `salt` argument. -/
def NewCryptoManager (masterPassword : String) (salt : Bytes) :
    Except CryptoErr CryptoManager :=
  if masterPassword = "" then
    .error (.validationError "master password cannot be empty")
  else
    .ok ⟨masterPassword, pbkdf2Key (strBytes masterPassword) salt, salt⟩

/-- Models `json.Marshal` on `EncryptedData`: an injective byte encoding
of the three fields (length-prefixed nonce and salt, then the data). -/
def marshalED (ed : EncryptedData) : Bytes :=
  ed.nonce.length :: (ed.nonce ++ ed.salt.length :: (ed.salt ++ ed.data))

/-- Models `json.Unmarshal` into `EncryptedData`: the total parser of
the envelope encoding, failing on malformed input. -/
def unmarshalED (bs : Bytes) : Option EncryptedData :=
  match bs with
  | [] => none
  | ln :: rest =>
    if ln ≤ rest.length then
      match rest.drop ln with
      | [] => none
      | ls :: rest2 =>
        if ls ≤ rest2.length then
          some ⟨rest.take ln, rest2.take ls, rest2.drop ls⟩
        else none
    else none

/-- Models `CryptoManager.Encrypt` (crypto.go): rejects empty data,
builds the AES-256-GCM cipher from the manager's key, seals the data
with a fresh nonce (passed in as the `nonce` argument, standing for the
bytes drawn by `rand.Read`), and marshals the envelope carrying the
nonce, the manager's salt and the sealed data without the nonce
prefix. -/
def CryptoManager.Encrypt (cm : CryptoManager) (nonce : Bytes) (data : Bytes) :
    Except CryptoErr Bytes :=
  if data.length = 0 then
    .error (.validationError "data cannot be empty")
  else if ¬ aesKeyOk cm.key then
    .error (.internalError "failed to create cipher")
  else
    .ok (marshalED ⟨nonce, cm.salt, (gcmSeal nonce cm.key nonce data).drop nonce.length⟩)

/-- Models `CryptoManager.Decrypt` (crypto.go): rejects empty input,
unmarshals the envelope, validates the embedded salt length, re-derives
the key from the manager's master password and the embedded salt, and
opens the AEAD; an open failure is a crypto error, never a success. -/
def CryptoManager.Decrypt (cm : CryptoManager) (encryptedData : Bytes) :
    Except CryptoErr Bytes :=
  if encryptedData.length = 0 then
    .error (.validationError "encrypted data cannot be empty")
  else
    match unmarshalED encryptedData with
    | none => .error (.validationError "failed to unmarshal encrypted data")
    | some encData =>
      if encData.salt.length ≠ 32 then
        .error (.validationError "invalid salt length in encrypted data")
      else if ¬ aesKeyOk (pbkdf2Key (strBytes cm.masterPassword) encData.salt) then
        .error (.internalError "failed to create cipher")
      else
        match gcmOpen (pbkdf2Key (strBytes cm.masterPassword) encData.salt)
            encData.nonce encData.data with
        | none => .error (.cryptoError "failed to decrypt data")
        | some pt => .ok pt

/-- Models `crypto.VerifyMasterPassword` (crypto.go): false for an empty
password or a salt of length other than 32, otherwise true exactly when
the derived key yields a constructible AES cipher (GCM construction on
an AES block never fails). -/
def VerifyMasterPassword (masterPassword : String) (salt : Bytes) : Bool :=
  if masterPassword = "" ∨ salt.length ≠ 32 then
    false
  else
    aesKeyOk (pbkdf2Key (strBytes masterPassword) salt)

/-- Differing at exactly one position: the relation between an envelope
field and its single-byte-modified copy. -/
def OneByteDiff (xs ys : Bytes) : Prop :=
  xs.length = ys.length ∧
  ∃ i, xs.get? i ≠ ys.get? i ∧ ∀ j, j ≠ i → xs.get? j = ys.get? j

/-- Models `client.ErrNotAuthenticated` and the other client-side error
outcomes. -/
inductive ClientErr where
  | notAuthenticated
  | serverError (msg : String)
deriving DecidableEq, Repr

/-- Models `models.DataRequest` (data.go); the DataType string is kept
as a plain string. -/
structure DataRequest where
  dtype : String
  name : String
  description : String
  data : Bytes
  metadata : String
deriving DecidableEq, Repr

/-- Models `models.Data` (data.go): UUIDs and timestamps are modelled
as naturals. -/
structure DataRecord where
  id : Nat
  userID : Nat
  dtype : String
  name : String
  description : String
  data : Bytes
  metadata : String
  createdAt : Nat
  updatedAt : Nat
deriving DecidableEq, Repr

/-- Models `client.ClientSession` (session.go): the held crypto manager
(the Go nil pointer is `none`) and the cached master password.  The
underlying HTTP client is not part of the state; its calls are passed
to each operation as an oracle argument. -/
structure ClientSession where
  cryptoManager : Option CryptoManager
  masterPassword : String
deriving DecidableEq, Repr

/-- Models `ClientSession.IsAuthenticated`: true iff the crypto manager
pointer is non-nil. -/
def ClientSession.IsAuthenticated (s : ClientSession) : Bool :=
  s.cryptoManager.isSome

/-- Models `ClientSession.List` (session.go).  `net` is the value the
network call `s.cli.GetData(ctx)` would return; the Bool of the result
records whether that network call was made. -/
def ClientSession.List (s : ClientSession)
    (net : Except ClientErr (List DataRecord)) :
    Except ClientErr (List DataRecord) × Bool :=
  if s.IsAuthenticated then (net, true) else (.error .notAuthenticated, false)

/-- Models `ClientSession.Get` (session.go); `net` stands for
`s.cli.GetDataByID(ctx, id)`. -/
def ClientSession.Get (s : ClientSession) (id : String)
    (net : Except ClientErr DataRecord) : Except ClientErr DataRecord × Bool :=
  if s.IsAuthenticated then (net, true) else (.error .notAuthenticated, false)

/-- Models `ClientSession.Create` (session.go); `net` stands for
`s.cli.CreateData(ctx, dataReq)`. -/
def ClientSession.Create (s : ClientSession) (dataReq : DataRequest)
    (net : Except ClientErr DataRecord) : Except ClientErr DataRecord × Bool :=
  if s.IsAuthenticated then (net, true) else (.error .notAuthenticated, false)

/-- Models `ClientSession.Update` (session.go); `net` stands for
`s.cli.UpdateData(ctx, id, dataReq)`. -/
def ClientSession.Update (s : ClientSession) (id : String)
    (dataReq : DataRequest) (net : Except ClientErr DataRecord) :
    Except ClientErr DataRecord × Bool :=
  if s.IsAuthenticated then (net, true) else (.error .notAuthenticated, false)

/-- Models `ClientSession.Delete` (session.go); `net` stands for
`s.cli.DeleteData(ctx, id)`. -/
def ClientSession.Delete (s : ClientSession) (id : String)
    (net : Except ClientErr Unit) : Except ClientErr Unit × Bool :=
  if s.IsAuthenticated then (net, true) else (.error .notAuthenticated, false)

/-- Models `http.Request` by the part the middleware reads and writes:
its header list, looked up by key. -/
structure Request where
  headers : List (String × String)
deriving DecidableEq, Repr

/-- Models `r.Header.Get(k)`: the first value stored for the key, or
the empty string when absent. -/
def headerGet (r : Request) (k : String) : String :=
  match r.headers.find? (fun p => p.1 == k) with
  | some p => p.2
  | none => ""

/-- Models `r.Header.Set(k, v)`: replaces any value for the key. -/
def headerSet (r : Request) (k v : String) : Request :=
  ⟨(k, v) :: r.headers.filter (fun p => !(p.1 == k))⟩

/-- Models `auth.Claims`: the claims carried by a session token; UUIDs
are modelled as naturals, times as naturals. -/
structure Claims where
  userID : Nat
  username : String
  issuedAt : Nat
  expiresAt : Nat
deriving DecidableEq, Repr

/-- Models `auth.ErrInvalidToken` and `auth.ErrTokenExpired`. -/
inductive TokenErr where
  | invalidToken
  | tokenExpired
deriving DecidableEq, Repr

/-- Outcome of the auth middleware on one request: `rejected status
msg` models `http.Error(w, msg, status)` with the wrapped handler never
invoked, and `passed r` models invoking the wrapped handler exactly
once, with `r` the request it receives. -/
inductive MwOutcome where
  | rejected (status : Nat) (msg : String)
  | passed (r : Request)
deriving DecidableEq, Repr

/-- Splitting a character list at every occurrence of the separator,
keeping empty words. -/
def splitChars (sep : Char) : List Char → List (List Char)
  | [] => [[]]
  | c :: cs =>
    match splitChars sep cs with
    | [] => if c = sep then [[], []] else [[c]]
    | w :: ws => if c = sep then [] :: w :: ws else (c :: w) :: ws

/-- Models `strings.Split(s, sep)` for a one-character separator: every
occurrence of the separator splits, empty fields are kept, and the
empty string yields one empty field. -/
def stringSplit (s : String) (sep : Char) : List String :=
  (splitChars sep s.data).map (fun w => String.mk w)

/-- The separator the middleware splits the Authorization header on. -/
def spaceChar : Char := ' '

/-- Models `auth.AuthMiddleware` (middleware.go): reads the
Authorization header, splits it on spaces, requires the exact
`Bearer <token>` shape, validates the token (`validateToken` stands for
`jwtManager.ValidateToken`), and on success sets the X-User-ID and
X-Username headers from the verified claims before invoking the
wrapped handler. -/
def AuthMiddleware (validateToken : String → Except TokenErr Claims)
    (r : Request) : MwOutcome :=
  if headerGet r "Authorization" = "" then
    .rejected 401 "Authorization header required"
  else if (stringSplit (headerGet r "Authorization") spaceChar).length ≠ 2 ∨
      (stringSplit (headerGet r "Authorization") spaceChar).head? ≠
        some "Bearer" then
    .rejected 401 "Invalid authorization header format"
  else
    match (stringSplit (headerGet r "Authorization") spaceChar).get? 1 with
    | none => .rejected 401 "Invalid authorization header format"
    | some token =>
      match validateToken token with
      | .error _ => .rejected 401 "Invalid token"
      | .ok claims =>
        .passed (headerSet (headerSet r "X-User-ID" (toString claims.userID))
          "X-Username" claims.username)

/-- Models `auth.JWTManager`.  Modelled from the spec: the JWT manager
implementation (`NewJWTManager`, `GenerateToken`, `ValidateToken`) is
not among the provided source files — only its tests and callers are —
so the issuer is modelled from spec section 4.3. -/
structure JWTManager where
  secretKey : String
  tokenExpiry : Nat
deriving DecidableEq, Repr

/-- Modelled from the spec: a session token is the signed claims; the
HMAC signature is idealized as the pair (signing secret, signed
claims), which is exactly unforgeable and collision-free. -/
structure Token where
  claims : Claims
  sig : String × Claims
deriving DecidableEq, Repr

/-- Modelled from the spec: `generateToken(userID, username)` builds
claims with issuedAt = now and expiresAt = now + TTL and signs them
with the issuer's secret; `now` is the clock reading at the call. -/
def JWTManager.GenerateToken (m : JWTManager) (now : Nat) (userID : Nat)
    (username : String) : Token :=
  ⟨⟨userID, username, now, now + m.tokenExpiry⟩,
   (m.secretKey, ⟨userID, username, now, now + m.tokenExpiry⟩)⟩

/-- Modelled from the spec: `validateToken` verifies the signature
against this issuer's secret (InvalidToken on mismatch), then the
expiry (TokenExpired when now is past expiresAt), and otherwise returns
the claims. -/
def JWTManager.ValidateToken (m : JWTManager) (now : Nat) (t : Token) :
    Except TokenErr Claims :=
  if t.sig ≠ (m.secretKey, t.claims) then .error .invalidToken
  else if t.claims.expiresAt < now then .error .tokenExpired
  else .ok t.claims

/-- Models `models.UserRequest`: the registration request body built by
`Client.Register`.  The struct declaration lives in a source file not
provided; its three fields are reconstructed from their uses in
`Client.Register` and `handleRegister`. -/
structure UserRequest where
  username : String
  password : String
  masterPassword : String
deriving DecidableEq, Repr

/-- Models `models.LoginRequest`: the login request body built by
`Client.Login`. -/
structure LoginRequest where
  username : String
  password : String
deriving DecidableEq, Repr

/-- Models the request value `Client.Register` marshals into the body
of POST /api/v1/register.  JSON serialization of this record is
injective, so the serialized body is modelled by the record itself. -/
def registerRequestBody (username password masterPassword : String) :
    UserRequest :=
  ⟨username, password, masterPassword⟩

/-- Models the request value `Client.Login` marshals into the body of
POST /api/v1/login. -/
def loginRequestBody (username password : String) : LoginRequest :=
  ⟨username, password⟩

/-- Models the body sent by the login flow `LoginCommand`
(commands.go): the command reads the master password from the terminal
but passes only (username, password) to `Client.Login`; the master
password is used locally to build the crypto manager. -/
def loginCommandRequestBody (username password masterPassword : String) :
    LoginRequest :=
  loginRequestBody username password

/-- Models `storage.ErrDataNotFound` together with the generic storage
failure the handlers map to an internal error. -/
inductive StoreErr where
  | dataNotFound
  | otherError (msg : String)
deriving DecidableEq, Repr

/-- Models `MemoryStorage.GetDataByID` (memory.go): the record map is
represented as a list keyed by id. -/
def getDataByID (store : List DataRecord) (dataID : Nat) :
    Except StoreErr DataRecord :=
  match store.find? (fun d => d.id == dataID) with
  | some d => .ok d
  | none => .error .dataNotFound

/-- Models `MemoryStorage.UpdateData` (memory.go): not-found check,
then replacement of the record with the matching id. -/
def updateDataStore (store : List DataRecord) (d2 : DataRecord) :
    Except StoreErr (List DataRecord) :=
  if store.any (fun d => d.id == d2.id) then
    .ok (store.map (fun d => if d.id == d2.id then d2 else d))
  else .error .dataNotFound

/-- Models `MemoryStorage.DeleteData` (memory.go). -/
def deleteDataStore (store : List DataRecord) (dataID : Nat) :
    Except StoreErr (List DataRecord) :=
  if store.any (fun d => d.id == dataID) then
    .ok (store.filter (fun d => !(d.id == dataID)))
  else .error .dataNotFound

/-- Models the HTTP responses the data handlers write: the constructor
carries exactly what the response body carries, so `forbidden` returns
no record contents. -/
inductive HandlerResp where
  | badRequest (msg : String)
  | notFound (msg : String)
  | internalError (msg : String)
  | forbidden (msg : String)
  | okData (d : DataRecord)
  | noContent
deriving DecidableEq, Repr

/-- Models `Server.handleGetDataByID` (handlers.go): `dataID2` and
`userID2` are the results of `uuid.Parse` on the path variable and on
the X-User-ID header set by the middleware. -/
def handleGetDataByID (store : List DataRecord)
    (dataID2 userID2 : Option Nat) : HandlerResp :=
  match dataID2 with
  | none => .badRequest "Invalid data ID"
  | some dataID =>
    match userID2 with
    | none => .badRequest "Invalid user ID"
    | some userID =>
      match getDataByID store dataID with
      | .error .dataNotFound => .notFound "Data not found"
      | .error (.otherError _) => .internalError "Failed to get data"
      | .ok d =>
        if d.userID ≠ userID then .forbidden "Access denied"
        else .okData d

/-- Models `Server.handleUpdateData` (handlers.go): parse checks, fetch,
ownership check, field update with a fresh UpdatedAt, store write; the
second component is the store after the call. -/
def handleUpdateData (store : List DataRecord) (dataID2 userID2 : Option Nat)
    (req2 : Option DataRequest) (now : Nat) :
    HandlerResp × List DataRecord :=
  match dataID2 with
  | none => (.badRequest "Invalid data ID", store)
  | some dataID =>
    match userID2 with
    | none => (.badRequest "Invalid user ID", store)
    | some userID =>
      match req2 with
      | none => (.badRequest "Invalid request body", store)
      | some req =>
        match getDataByID store dataID with
        | .error .dataNotFound => (.notFound "Data not found", store)
        | .error (.otherError _) => (.internalError "Failed to get data", store)
        | .ok d =>
          if d.userID ≠ userID then (.forbidden "Access denied", store)
          else
            let d2 : DataRecord :=
              { d with
                dtype := req.dtype,
                name := req.name,
                description := req.description,
                data := req.data,
                metadata := req.metadata,
                updatedAt := now }
            match updateDataStore store d2 with
            | .error _ => (.internalError "Failed to update data", store)
            | .ok store2 => (.okData d2, store2)

/-- Models `Server.handleDeleteData` (handlers.go). -/
def handleDeleteData (store : List DataRecord) (dataID2 userID2 : Option Nat) :
    HandlerResp × List DataRecord :=
  match dataID2 with
  | none => (.badRequest "Invalid data ID", store)
  | some dataID =>
    match userID2 with
    | none => (.badRequest "Invalid user ID", store)
    | some userID =>
      match getDataByID store dataID with
      | .error .dataNotFound => (.notFound "Data not found", store)
      | .error (.otherError _) => (.internalError "Failed to get data", store)
      | .ok d =>
        if d.userID ≠ userID then (.forbidden "Access denied", store)
        else
          match deleteDataStore store dataID with
          | .error _ => (.internalError "Failed to delete data", store)
          | .ok store2 => (.noContent, store2)

theorem pbkdf2Key_length (p s : Bytes) : (pbkdf2Key p s).length = 32 := by
  simp [pbkdf2Key]
  omega

theorem aesKeyOk_pbkdf2Key (p s : Bytes) : aesKeyOk (pbkdf2Key p s) = true := by
  simp [aesKeyOk, pbkdf2Key_length]

theorem unmarshalED_marshalED (ed : EncryptedData) :
    unmarshalED (marshalED ed) = some ed := by
  obtain ⟨nonce, salt, data⟩ := ed
  simp [marshalED, unmarshalED, List.drop_left, List.take_left]

theorem OneByteDiff.ne {xs ys : Bytes} (h : OneByteDiff xs ys) : xs ≠ ys := by
  obtain ⟨-, i, hi, -⟩ := h
  intro hq
  exact hi (by rw [hq])

theorem exists_diff_index {xs ys : Bytes} (hlen : xs.length = ys.length)
    (hne : xs ≠ ys) : ∃ j, j < xs.length ∧ xs.get? j ≠ ys.get? j := by
  by_contra hc
  push_neg at hc
  apply hne
  apply List.ext_get?
  intro n
  by_cases hn : n < xs.length
  · exact hc n hn
  · have h1 : xs.get? n = none := List.get?_eq_none.mpr (by omega)
    have h2 : ys.get? n = none := List.get?_eq_none.mpr (by omega)
    rw [h1, h2]

theorem gcmSealBody_length {key nonce : Bytes} (pt : Bytes)
    (hk : key.length = 32) (hn : nonce.length = 12) :
    (gcmSealBody key nonce pt).length = 2 * pt.length + 44 := by
  simp [gcmSealBody, hk, hn]
  omega

theorem gcmSealBody_get?_lo (key nonce pt : Bytes) {j : Nat} (hj : j < pt.length) :
    (gcmSealBody key nonce pt).get? j = pt.get? j := by
  have h1 : gcmSealBody key nonce pt = pt ++ (key ++ (nonce ++ pt)) := by
    simp [gcmSealBody]
  rw [h1, List.get?_append hj]

theorem gcmSealBody_get?_hi (key nonce pt : Bytes)
    (hk : key.length = 32) (hn : nonce.length = 12) (j : Nat) :
    (gcmSealBody key nonce pt).get? (pt.length + 44 + j) = pt.get? j := by
  have hgl : (pt ++ key ++ nonce).length = pt.length + 44 := by
    simp [hk, hn]
  have h1 : gcmSealBody key nonce pt = (pt ++ key ++ nonce) ++ pt := by
    simp [gcmSealBody]
  rw [h1, List.get?_append_right (by omega)]
  congr 1
  omega

theorem gcmSealBody_take {key nonce pt : Bytes} :
    (gcmSealBody key nonce pt).take pt.length = pt := by
  have h1 : gcmSealBody key nonce pt = pt ++ (key ++ (nonce ++ pt)) := by
    simp [gcmSealBody]
  rw [h1, List.take_left]

/-- Opening an untampered seal under the same key and nonce recovers
the plaintext. -/
theorem gcmOpen_gcmSealBody (key nonce pt : Bytes)
    (hk : key.length = 32) (hn : nonce.length = 12) :
    gcmOpen key nonce (gcmSealBody key nonce pt) = some pt := by
  have hlen := gcmSealBody_length pt hk hn
  have hdiv : ((gcmSealBody key nonce pt).length - 44) / 2 = pt.length := by
    omega
  simp only [gcmOpen]
  rw [if_pos (by constructor <;> omega)]
  rw [hdiv, gcmSealBody_take,
    if_pos (show gcmSealBody key nonce pt = pt ++ key ++ nonce ++ pt from rfl)]

/-- Opening a seal under a different nonce of the same length fails. -/
theorem gcmOpen_wrong_nonce (key nonce nonce2 pt : Bytes)
    (hk : key.length = 32) (hn : nonce.length = 12)
    (hne : nonce2 ≠ nonce) :
    gcmOpen key nonce2 (gcmSealBody key nonce pt) = none := by
  have hlen := gcmSealBody_length pt hk hn
  have hdiv : ((gcmSealBody key nonce pt).length - 44) / 2 = pt.length := by
    omega
  simp only [gcmOpen]
  rw [if_pos (by constructor <;> omega)]
  rw [hdiv, gcmSealBody_take, if_neg ?hneq]
  case hneq =>
    intro heq
    have h1 : ((pt ++ key) ++ nonce) ++ pt = ((pt ++ key) ++ nonce2) ++ pt := heq
    have h2 : (pt ++ key) ++ nonce = (pt ++ key) ++ nonce2 :=
      List.append_cancel_right h1
    exact hne (List.append_cancel_left h2).symm

/-- Opening any single-byte modification of a sealed body fails: the
idealized tag binds every byte of the ciphertext. -/
theorem gcmOpen_tampered_data (key nonce pt c2 : Bytes)
    (hk : key.length = 32) (hn : nonce.length = 12)
    (hd : OneByteDiff (gcmSealBody key nonce pt) c2) :
    gcmOpen key nonce c2 = none := by
  obtain ⟨hlen0, i, hi, hrest⟩ := hd
  have hlen := gcmSealBody_length pt hk hn
  have hlen2 : c2.length = 2 * pt.length + 44 := by omega
  have hdiv : (c2.length - 44) / 2 = pt.length := by omega
  have hneq : ¬ (c2 = c2.take pt.length ++ key ++ nonce ++ c2.take pt.length) := by
    intro heq
    have hpt2len : (c2.take pt.length).length = pt.length := by
      rw [List.length_take]
      omega
    by_cases hpp : c2.take pt.length = pt
    · rw [hpp] at heq
      exact hi (by rw [show c2 = gcmSealBody key nonce pt from heq])
    · have hne2 : pt ≠ c2.take pt.length := fun hq => hpp hq.symm
      obtain ⟨j, hj, hjne⟩ := exists_diff_index hpt2len.symm hne2
      have hlo : (gcmSealBody key nonce pt).get? j ≠ c2.get? j := by
        rw [gcmSealBody_get?_lo key nonce pt hj]
        rw [show c2 = gcmSealBody key nonce (c2.take pt.length) from heq]
        rw [gcmSealBody_get?_lo key nonce _ (by omega)]
        exact hjne
      have hhi : (gcmSealBody key nonce pt).get? (pt.length + 44 + j) ≠
          c2.get? (pt.length + 44 + j) := by
        rw [gcmSealBody_get?_hi key nonce pt hk hn j]
        rw [show c2 = gcmSealBody key nonce (c2.take pt.length) from heq]
        rw [show pt.length + 44 + j = (c2.take pt.length).length + 44 + j by omega]
        rw [gcmSealBody_get?_hi key nonce _ hk hn j]
        exact hjne
      have e1 : j = i := by
        by_contra hc
        exact hlo (hrest j hc)
      have e2 : pt.length + 44 + j = i := by
        by_contra hc
        exact hhi (hrest _ hc)
      omega
  simp only [gcmOpen]
  rw [if_pos (by constructor <;> omega)]
  rw [hdiv, if_neg hneq]

theorem newCryptoManagerWithSalt_ok_inv {M : String} {S : Bytes} {cm : CryptoManager}
    (h : NewCryptoManagerWithSalt M S = .ok cm) :
    cm = ⟨M, pbkdf2Key (strBytes M) S, S⟩ ∧ M ≠ "" ∧ S.length = 32 := by
  simp only [NewCryptoManagerWithSalt] at h
  by_cases h1 : M = ""
  · rw [if_pos h1] at h
    cases h
  · rw [if_neg h1] at h
    by_cases h2 : S.length ≠ 32
    · rw [if_pos h2] at h
      cases h
    · rw [if_neg h2] at h
      cases h
      exact ⟨rfl, h1, by omega⟩

theorem encrypt_eq {cm : CryptoManager} {N P : Bytes} (hP : P ≠ [])
    (hkey : aesKeyOk cm.key = true) :
    cm.Encrypt N P = .ok (marshalED ⟨N, cm.salt, gcmSealBody cm.key N P⟩) := by
  simp only [CryptoManager.Encrypt, gcmSeal]
  rw [if_neg (by simp [hP])]
  rw [if_neg (by simp [hkey])]
  rw [List.drop_left]

theorem marshalED_length_ne_zero (ed : EncryptedData) :
    ¬ (marshalED ed).length = 0 := by
  simp [marshalED]

theorem decrypt_marshal (cm : CryptoManager) (ed : EncryptedData)
    (hsalt : ed.salt.length = 32) :
    cm.Decrypt (marshalED ed) =
      match gcmOpen (pbkdf2Key (strBytes cm.masterPassword) ed.salt)
          ed.nonce ed.data with
      | none => .error (.cryptoError "failed to decrypt data")
      | some pt => .ok pt := by
  simp only [CryptoManager.Decrypt]
  rw [if_neg (marshalED_length_ne_zero ed)]
  rw [unmarshalED_marshalED]
  simp only [aesKeyOk_pbkdf2Key]
  rw [if_neg (by rw [hsalt]; simp)]
  rw [if_neg (by simp)]

theorem decrypt_sealed (cm : CryptoManager) (S N P : Bytes)
    (hS : S.length = 32) (hN : N.length = 12) :
    cm.Decrypt (marshalED
      ⟨N, S, gcmSealBody (pbkdf2Key (strBytes cm.masterPassword) S) N P⟩) =
      .ok P := by
  rw [decrypt_marshal cm _ hS]
  rw [gcmOpen_gcmSealBody _ _ _ (pbkdf2Key_length _ _) hN]

/-- C1: for every non-empty master password M, 32-byte salt S and
non-empty plaintext P (and any 12-byte nonce drawn for the encryption),
decrypting the envelope produced by Encrypt on a CryptoManager
constructed from (M, S) returns exactly P. -/
theorem encrypt_then_decrypt_roundtrip
    (M : String) (S P N : Bytes) (hM : M ≠ "") (hS : S.length = 32)
    (hP : P ≠ []) (hN : N.length = 12)
    (cm : CryptoManager) (hcm : NewCryptoManagerWithSalt M S = .ok cm)
    (env : Bytes) (henv : cm.Encrypt N P = .ok env) :
    cm.Decrypt env = .ok P := by
  obtain ⟨hcme, -, -⟩ := newCryptoManagerWithSalt_ok_inv hcm
  subst hcme
  rw [encrypt_eq hP (by simp [aesKeyOk_pbkdf2Key])] at henv
  injection henv with henv
  rw [← henv]
  exact decrypt_sealed _ S N P hS hN

theorem encrypt_then_decrypt_roundtrip_witness :
    ("pw" : String) ≠ "" ∧ (List.replicate 32 0 : Bytes).length = 32 ∧
    ([1, 2, 3] : Bytes) ≠ [] ∧ (List.replicate 12 9 : Bytes).length = 12 ∧
    (⟨"pw", pbkdf2Key (strBytes "pw") (List.replicate 32 0),
        List.replicate 32 0⟩ : CryptoManager).Decrypt
      (marshalED ⟨List.replicate 12 9, List.replicate 32 0,
        gcmSealBody (pbkdf2Key (strBytes "pw") (List.replicate 32 0))
          (List.replicate 12 9) [1, 2, 3]⟩) = .ok [1, 2, 3] := by
  refine ⟨by decide, by decide, by decide, by decide, ?_⟩
  exact encrypt_then_decrypt_roundtrip "pw" (List.replicate 32 0) [1, 2, 3]
    (List.replicate 12 9) (by decide) (by decide) (by decide) (by decide)
    _ rfl _ rfl

/-- C3: Decrypt re-derives the key from the manager's master password
and the envelope's embedded salt, so a manager built from (M, S2)
decrypts an envelope produced by a manager built from (M, S1) and
returns the plaintext. -/
theorem cross_instance_decrypt
    (M : String) (S1 S2 P N : Bytes) (hM : M ≠ "")
    (hS1 : S1.length = 32) (hS2 : S2.length = 32)
    (hP : P ≠ []) (hN : N.length = 12)
    (cm1 cm2 : CryptoManager)
    (h1 : NewCryptoManagerWithSalt M S1 = .ok cm1)
    (h2 : NewCryptoManagerWithSalt M S2 = .ok cm2)
    (env : Bytes) (henv : cm1.Encrypt N P = .ok env) :
    cm2.Decrypt env = .ok P := by
  obtain ⟨hcme1, -, -⟩ := newCryptoManagerWithSalt_ok_inv h1
  obtain ⟨hcme2, -, -⟩ := newCryptoManagerWithSalt_ok_inv h2
  subst hcme1
  subst hcme2
  rw [encrypt_eq hP (by simp [aesKeyOk_pbkdf2Key])] at henv
  injection henv with henv
  rw [← henv]
  exact decrypt_sealed _ S1 N P hS1 hN

theorem cross_instance_decrypt_witness :
    ("pw" : String) ≠ "" ∧ (List.replicate 32 0 : Bytes).length = 32 ∧
    (List.replicate 32 7 : Bytes).length = 32 ∧
    ([5] : Bytes) ≠ [] ∧ (List.replicate 12 1 : Bytes).length = 12 ∧
    (⟨"pw", pbkdf2Key (strBytes "pw") (List.replicate 32 7),
        List.replicate 32 7⟩ : CryptoManager).Decrypt
      (marshalED ⟨List.replicate 12 1, List.replicate 32 0,
        gcmSealBody (pbkdf2Key (strBytes "pw") (List.replicate 32 0))
          (List.replicate 12 1) [5]⟩) = .ok [5] := by
  refine ⟨by decide, by decide, by decide, by decide, by decide, ?_⟩
  exact cross_instance_decrypt "pw" (List.replicate 32 0) (List.replicate 32 7)
    [5] (List.replicate 12 1) (by decide) (by decide) (by decide) (by decide)
    (by decide) _ _ rfl rfl _ rfl

/-- C2: decrypting any single-byte modification of the `data` or
`nonce` field of an envelope produced by Encrypt fails with a
CryptoError (AEAD authentication failure) and never returns a
plaintext. -/
theorem decrypt_tampered_envelope
    (M : String) (S P N : Bytes) (hM : M ≠ "") (hS : S.length = 32)
    (hP : P ≠ []) (hN : N.length = 12)
    (cm : CryptoManager) (hcm : NewCryptoManagerWithSalt M S = .ok cm)
    (env : Bytes) (henv : cm.Encrypt N P = .ok env)
    (ed : EncryptedData) (hed : unmarshalED env = some ed)
    (nonce2 data2 : Bytes)
    (htamper : (nonce2 = ed.nonce ∧ OneByteDiff ed.data data2) ∨
               (OneByteDiff ed.nonce nonce2 ∧ data2 = ed.data)) :
    cm.Decrypt (marshalED ⟨nonce2, ed.salt, data2⟩) =
      .error (.cryptoError "failed to decrypt data") := by
  obtain ⟨hcme, -, -⟩ := newCryptoManagerWithSalt_ok_inv hcm
  subst hcme
  rw [encrypt_eq hP (by simp [aesKeyOk_pbkdf2Key])] at henv
  injection henv with henv
  rw [← henv, unmarshalED_marshalED] at hed
  injection hed with hed
  subst hed
  rw [decrypt_marshal _ _ hS]
  rcases htamper with ⟨hn2, hdiff⟩ | ⟨hdiff, hd2⟩
  · subst hn2
    rw [gcmOpen_tampered_data _ _ _ _ (pbkdf2Key_length _ _) hN hdiff]
  · subst hd2
    rw [gcmOpen_wrong_nonce _ _ _ _ (pbkdf2Key_length _ _) hN
      (OneByteDiff.ne hdiff).symm]

theorem decrypt_tampered_envelope_witness :
    (⟨"k", pbkdf2Key (strBytes "k") (List.replicate 32 0),
        List.replicate 32 0⟩ : CryptoManager).Decrypt
      (marshalED ⟨List.replicate 12 3, List.replicate 32 0,
        2 :: (gcmSealBody (pbkdf2Key (strBytes "k") (List.replicate 32 0))
          (List.replicate 12 3) [1]).tail⟩) =
      .error (.cryptoError "failed to decrypt data") := by
  have hob : OneByteDiff
      (gcmSealBody (pbkdf2Key (strBytes "k") (List.replicate 32 0))
        (List.replicate 12 3) [1])
      (2 :: (gcmSealBody (pbkdf2Key (strBytes "k") (List.replicate 32 0))
        (List.replicate 12 3) [1]).tail) := by
    refine ⟨by decide, 0, by decide, ?_⟩
    intro j hj
    cases j with
    | zero => exact absurd rfl hj
    | succ k => rfl
  exact decrypt_tampered_envelope "k" (List.replicate 32 0) [1]
    (List.replicate 12 3) (by decide) (by decide) (by decide) (by decide)
    _ rfl _ rfl _ (unmarshalED_marshalED _) _ _ (Or.inl ⟨rfl, hob⟩)

/-- C4: VerifyMasterPassword returns true exactly for a non-empty
password and a 32-byte salt, independently of whether the password
matches previously encrypted data. -/
theorem verifyMasterPassword_iff (masterPassword : String) (salt : Bytes) :
    VerifyMasterPassword masterPassword salt = true ↔
      masterPassword ≠ "" ∧ salt.length = 32 := by
  simp only [VerifyMasterPassword]
  by_cases h1 : masterPassword = ""
  · simp [h1]
  · by_cases h2 : salt.length = 32
    · simp [h1, h2, aesKeyOk_pbkdf2Key]
    · simp [h1, h2]

/-- C8: constructing a CryptoManager fails with a ValidationError for
an empty master password (both constructors) and for a salt whose
length is not 32, and succeeds for every non-empty password with a
32-byte salt. -/
theorem newCryptoManager_validation (masterPassword : String) (salt : Bytes) :
    (masterPassword = "" →
      (∃ msg, NewCryptoManagerWithSalt masterPassword salt =
        .error (.validationError msg)) ∧
      (∃ msg, NewCryptoManager masterPassword salt =
        .error (.validationError msg))) ∧
    (salt.length ≠ 32 →
      ∃ msg, NewCryptoManagerWithSalt masterPassword salt =
        .error (.validationError msg)) ∧
    (masterPassword ≠ "" → salt.length = 32 →
      ∃ cm, NewCryptoManagerWithSalt masterPassword salt = .ok cm ∧
        cm.masterPassword = masterPassword ∧ cm.salt = salt) := by
  refine ⟨?_, ?_, ?_⟩
  · intro h
    constructor
    · exact ⟨"master password cannot be empty",
        by simp [NewCryptoManagerWithSalt, h]⟩
    · exact ⟨"master password cannot be empty", by simp [NewCryptoManager, h]⟩
  · intro h
    by_cases h1 : masterPassword = ""
    · exact ⟨"master password cannot be empty",
        by simp [NewCryptoManagerWithSalt, h1]⟩
    · exact ⟨"invalid salt length: expected 32 bytes",
        by simp [NewCryptoManagerWithSalt, h1, h]⟩
  · intro h1 h2
    exact ⟨⟨masterPassword, pbkdf2Key (strBytes masterPassword) salt, salt⟩,
      by simp [NewCryptoManagerWithSalt, h1, h2], rfl, rfl⟩

theorem newCryptoManager_validation_witness :
    (∃ msg, NewCryptoManagerWithSalt "" (List.replicate 32 0) =
      .error (.validationError msg)) ∧
    (∃ msg, NewCryptoManagerWithSalt "pw" [1, 2] =
      .error (.validationError msg)) ∧
    (∃ cm, NewCryptoManagerWithSalt "pw" (List.replicate 32 0) = .ok cm ∧
      cm.masterPassword = "pw" ∧ cm.salt = List.replicate 32 0) := by
  refine ⟨((newCryptoManager_validation "" (List.replicate 32 0)).1 rfl).1,
    ?_, ?_⟩
  · exact (newCryptoManager_validation "pw" [1, 2]).2.1 (by decide)
  · exact (newCryptoManager_validation "pw" (List.replicate 32 0)).2.2
      (by decide) (by decide)

/-- C9: IsAuthenticated is true exactly when a crypto manager is held,
and every data operation invoked while unauthenticated fails with
NotAuthenticated without making the network call. -/
theorem session_auth_gate (s : ClientSession) :
    (s.IsAuthenticated = true ↔ ∃ cm, s.cryptoManager = some cm) ∧
    (s.IsAuthenticated = false →
      (∀ net, s.List net = (.error .notAuthenticated, false)) ∧
      (∀ id net, s.Get id net = (.error .notAuthenticated, false)) ∧
      (∀ req net, s.Create req net = (.error .notAuthenticated, false)) ∧
      (∀ id req net, s.Update id req net = (.error .notAuthenticated, false)) ∧
      (∀ id net, s.Delete id net = (.error .notAuthenticated, false))) := by
  constructor
  · simp [ClientSession.IsAuthenticated, Option.isSome_iff_exists]
  · intro h
    refine ⟨?_, ?_, ?_, ?_, ?_⟩ <;> intros <;>
      simp [ClientSession.List, ClientSession.Get, ClientSession.Create,
        ClientSession.Update, ClientSession.Delete, h]

theorem session_auth_gate_witness :
    (⟨none, ""⟩ : ClientSession).List (.ok []) =
      (.error .notAuthenticated, false) ∧
    (⟨none, ""⟩ : ClientSession).Delete "id1" (.ok ()) =
      (.error .notAuthenticated, false) := by
  have h := session_auth_gate ⟨none, ""⟩
  exact ⟨(h.2 rfl).1 _, (h.2 rfl).2.2.2.2 _ _⟩

/-- C6: validating a freshly generated token before the TTL elapses
returns its claims, after the TTL it fails with TokenExpired, and under
an issuer with a different secret it fails with InvalidToken. -/
theorem token_lifecycle (m m2 : JWTManager) (now t : Nat) (u : Nat)
    (n : String) :
    (t ≤ now + m.tokenExpiry →
      m.ValidateToken t (m.GenerateToken now u n) =
        .ok ⟨u, n, now, now + m.tokenExpiry⟩) ∧
    (now + m.tokenExpiry < t →
      m.ValidateToken t (m.GenerateToken now u n) = .error .tokenExpired) ∧
    (m2.secretKey ≠ m.secretKey →
      m2.ValidateToken t (m.GenerateToken now u n) = .error .invalidToken) := by
  refine ⟨?_, ?_, ?_⟩
  · intro h
    simp only [JWTManager.GenerateToken, JWTManager.ValidateToken]
    rw [if_neg (fun hq => hq rfl)]
    rw [if_neg (Nat.not_lt.mpr h)]
  · intro h
    simp only [JWTManager.GenerateToken, JWTManager.ValidateToken]
    rw [if_neg (fun hq => hq rfl)]
    rw [if_pos h]
  · intro h
    simp only [JWTManager.GenerateToken, JWTManager.ValidateToken]
    rw [if_pos (fun hq => h (congrArg Prod.fst hq).symm)]

theorem token_lifecycle_witness :
    (⟨"s1", 10⟩ : JWTManager).ValidateToken 5
      ((⟨"s1", 10⟩ : JWTManager).GenerateToken 0 7 "alice") =
      .ok ⟨7, "alice", 0, 10⟩ ∧
    (⟨"s1", 10⟩ : JWTManager).ValidateToken 11
      ((⟨"s1", 10⟩ : JWTManager).GenerateToken 0 7 "alice") =
      .error .tokenExpired ∧
    (⟨"s2", 10⟩ : JWTManager).ValidateToken 5
      ((⟨"s1", 10⟩ : JWTManager).GenerateToken 0 7 "alice") =
      .error .invalidToken := by
  refine ⟨?_, ?_, ?_⟩
  · exact (token_lifecycle ⟨"s1", 10⟩ ⟨"s2", 10⟩ 0 5 7 "alice").1 (by decide)
  · exact (token_lifecycle ⟨"s1", 10⟩ ⟨"s2", 10⟩ 0 11 7 "alice").2.1 (by decide)
  · exact (token_lifecycle ⟨"s1", 10⟩ ⟨"s2", 10⟩ 0 5 7 "alice").2.2 (by decide)

/-- C5 fails on the code: two registration exchanges that differ only
in the master password produce different serialized request bodies,
because Client.Register places the master password itself in the body
of POST /api/v1/register. -/
theorem register_body_depends_on_master_password :
    registerRequestBody "alice" "accountpw" "master1" ≠
      registerRequestBody "alice" "accountpw" "master2" := by
  decide

/-- C5 (amended): the login request body is independent of the master
password, but the registration request body is not — it carries the
master password verbatim, so registrations differing only in the master
password produce different bodies. -/
theorem master_password_transmission (u p m m2 : String) :
    loginCommandRequestBody u p m = loginCommandRequestBody u p m2 ∧
    (registerRequestBody u p m).masterPassword = m ∧
    (m ≠ m2 → registerRequestBody u p m ≠ registerRequestBody u p m2) := by
  refine ⟨rfl, rfl, ?_⟩
  intro h hq
  exact h (congrArg UserRequest.masterPassword hq)

theorem master_password_transmission_witness :
    loginCommandRequestBody "u" "p" "a" = loginCommandRequestBody "u" "p" "b" ∧
    registerRequestBody "u" "p" "a" ≠ registerRequestBody "u" "p" "b" := by
  have h := master_password_transmission "u" "p" "a" "b"
  exact ⟨h.1, h.2.2 (by decide)⟩

/-- C10: an authenticated read, update or delete of a record owned by a
different user is rejected with 403 Access denied, returns no record
contents (the forbidden response carries none) and leaves the stored
data unchanged. -/
theorem handlers_enforce_ownership (store : List DataRecord)
    (dataID userID : Nat) (d : DataRecord) (req : DataRequest) (now : Nat)
    (hfound : getDataByID store dataID = .ok d)
    (howner : d.userID ≠ userID) :
    handleGetDataByID store (some dataID) (some userID) =
      .forbidden "Access denied" ∧
    handleUpdateData store (some dataID) (some userID) (some req) now =
      (.forbidden "Access denied", store) ∧
    handleDeleteData store (some dataID) (some userID) =
      (.forbidden "Access denied", store) := by
  refine ⟨?_, ?_, ?_⟩ <;>
    simp [handleGetDataByID, handleUpdateData, handleDeleteData, hfound, howner]

theorem handlers_enforce_ownership_witness :
    handleGetDataByID [⟨1, 7, "text", "n", "", [], "", 0, 0⟩] (some 1) (some 8) =
      .forbidden "Access denied" ∧
    handleUpdateData [⟨1, 7, "text", "n", "", [], "", 0, 0⟩] (some 1) (some 8)
      (some ⟨"text", "n2", "", [9], ""⟩) 5 =
      (.forbidden "Access denied", [⟨1, 7, "text", "n", "", [], "", 0, 0⟩]) ∧
    handleDeleteData [⟨1, 7, "text", "n", "", [], "", 0, 0⟩] (some 1) (some 8) =
      (.forbidden "Access denied", [⟨1, 7, "text", "n", "", [], "", 0, 0⟩]) :=
  handlers_enforce_ownership [⟨1, 7, "text", "n", "", [], "", 0, 0⟩] 1 8
    ⟨1, 7, "text", "n", "", [], "", 0, 0⟩ ⟨"text", "n2", "", [9], ""⟩ 5
    rfl (by decide)

/-- C7: a request with a missing Authorization header, a header not of
the form `Bearer <token>`, or a token failing validation is rejected
with 401 Unauthorized and the wrapped handler is never invoked; a
request whose token validates leads to the wrapped handler being
invoked exactly once, with X-User-ID and X-Username set to the verified
claims. -/
theorem auth_middleware_spec (validateToken : String → Except TokenErr Claims)
    (r : Request) :
    (headerGet r "Authorization" = "" →
      AuthMiddleware validateToken r =
        .rejected 401 "Authorization header required") ∧
    (headerGet r "Authorization" ≠ "" →
      ((stringSplit (headerGet r "Authorization") spaceChar).length ≠ 2 ∨
        (stringSplit (headerGet r "Authorization") spaceChar).head? ≠
          some "Bearer") →
      AuthMiddleware validateToken r =
        .rejected 401 "Invalid authorization header format") ∧
    (∀ token e,
      stringSplit (headerGet r "Authorization") spaceChar = ["Bearer", token] →
      headerGet r "Authorization" ≠ "" →
      validateToken token = .error e →
      AuthMiddleware validateToken r = .rejected 401 "Invalid token") ∧
    (∀ token claims,
      stringSplit (headerGet r "Authorization") spaceChar = ["Bearer", token] →
      headerGet r "Authorization" ≠ "" →
      validateToken token = .ok claims →
      ∃ r2, AuthMiddleware validateToken r = .passed r2 ∧
        headerGet r2 "X-User-ID" = toString claims.userID ∧
        headerGet r2 "X-Username" = claims.username) := by
  refine ⟨?_, ?_, ?_, ?_⟩
  · intro h
    simp only [AuthMiddleware]
    rw [if_pos h]
  · intro h1 h2
    simp only [AuthMiddleware]
    rw [if_neg h1, if_pos h2]
  · intro token e hsplit h1 hv
    simp only [AuthMiddleware]
    rw [if_neg h1, if_neg (by rw [hsplit]; simp), hsplit]
    simp only [List.get?]
    rw [hv]
  · intro token claims hsplit h1 hv
    simp only [AuthMiddleware]
    rw [if_neg h1, if_neg (by rw [hsplit]; simp), hsplit]
    simp only [List.get?]
    rw [hv]
    refine ⟨_, rfl, ?_, ?_⟩
    · simp [headerGet, headerSet]
    · simp [headerGet, headerSet]

theorem auth_middleware_spec_witness :
    AuthMiddleware
      (fun t => if t = "good" then .ok ⟨7, "alice", 0, 10⟩
        else .error .invalidToken) ⟨[]⟩ =
      .rejected 401 "Authorization header required" ∧
    AuthMiddleware
      (fun t => if t = "good" then .ok ⟨7, "alice", 0, 10⟩
        else .error .invalidToken) ⟨[("Authorization", "Token abc")]⟩ =
      .rejected 401 "Invalid authorization header format" ∧
    AuthMiddleware
      (fun t => if t = "good" then .ok ⟨7, "alice", 0, 10⟩
        else .error .invalidToken) ⟨[("Authorization", "Bearer bad")]⟩ =
      .rejected 401 "Invalid token" ∧
    (∃ r2, AuthMiddleware
      (fun t => if t = "good" then .ok ⟨7, "alice", 0, 10⟩
        else .error .invalidToken) ⟨[("Authorization", "Bearer good")]⟩ =
      .passed r2 ∧
      headerGet r2 "X-User-ID" = toString (7 : Nat) ∧
      headerGet r2 "X-Username" = "alice") := by
  refine ⟨?_, ?_, ?_, ?_⟩
  · exact (auth_middleware_spec _ ⟨[]⟩).1 (by decide)
  · exact (auth_middleware_spec _ ⟨[("Authorization", "Token abc")]⟩).2.1
      (by decide) (Or.inr (by decide))
  · exact (auth_middleware_spec _ ⟨[("Authorization", "Bearer bad")]⟩).2.2.1
      "bad" .invalidToken (by decide) (by decide) rfl
  · exact (auth_middleware_spec _ ⟨[("Authorization", "Bearer good")]⟩).2.2.2
      "good" ⟨7, "alice", 0, 10⟩ (by decide) (by decide) rfl

end Gophkeeper
